import Mathlib

/-!
# A verification model of the github-proxy request core

This file gives a shallow embedding, in Lean 4, of the core of the
`github-proxy` Go program: the two-tier rate-limit admission check
(`checkLimits`, `getClientIP`, `getClientLimiter`, `initGlobalLimiter`),
the shared installation-token cache (`getInstallationToken`), the content
fetcher (`GetFileContent`), and the request pipeline (`requestHandler`).

Modelling conventions:
* Time is a rational number (unit: seconds); `time.Now()` becomes an
  explicit `now : ℚ` argument threaded through the definitions.
* `golang.org/x/time/rate.Limiter` is embedded as an explicit token
  bucket (`Limiter`): `Allow` lazily refills `elapsed * limit` tokens,
  capped at `burst`, then consumes one token if at least one is
  available.  A freshly constructed limiter behaves as a full bucket
  (the Go implementation reaches the same state on its first `advance`
  because its zero `last` time makes the first elapsed interval huge).
* Go maps become association lists; network calls become oracle values
  supplied as arguments (`MintOutcome`, `Upstream`); mutation of the
  package-level state becomes explicit state passing.
* Go byte strings are modelled as `String` where the code treats them
  as text and as `List Nat` where the code treats them as raw bytes.
-/

/-- One `golang.org/x/time/rate.Limiter`: a token bucket with a refill
rate `limit` (tokens per second), a capacity `burst`, a current token
count and the time of the last refill. -/
structure Limiter where
  limit : ℚ
  burst : ℚ
  tokens : ℚ
  lastTime : ℚ
  deriving Repr, DecidableEq

/-- Lazy refill at time `now`: add `elapsed * limit` tokens, capped at
`burst`, and remember `now`. -/
def Limiter.advance (l : Limiter) (now : ℚ) : Limiter :=
  { l with tokens := min l.burst (l.tokens + (now - l.lastTime) * l.limit), lastTime := now }

/-- Result of `Limiter.Allow`: the admission decision and the updated bucket. -/
structure AllowOut where
  ok : Bool
  limiter : Limiter
  deriving Repr, DecidableEq

/-- `rate.Limiter.Allow()`: refill, then consume one token if available. -/
def Limiter.Allow (l : Limiter) (now : ℚ) : AllowOut :=
  let l := l.advance now
  if 1 ≤ l.tokens then { ok := true, limiter := { l with tokens := l.tokens - 1 } }
  else { ok := false, limiter := l }

/-- `rate.NewLimiter(rate.Every(interval), burst)` with `interval` in
seconds: rate `1 / interval` tokens per second, a full initial bucket. -/
def NewLimiter (limit : ℚ) (burst : ℚ) : Limiter :=
  { limit := limit, burst := burst, tokens := burst, lastTime := 0 }

/-- `ClientRate = time.Minute / 60`, i.e. one token per second. -/
def ClientRate : ℚ := 1

/-- `ClientBurst = 8`. -/
def ClientBurst : ℚ := 8

/-- One entry of the `clientLimiters` map. -/
structure ClientEntry where
  limiter : Limiter
  lastSeen : ℚ
  deriving Repr, DecidableEq

/-- The package-level rate-limit state: the global limiter and the
per-client limiter map (an association list keyed by client IP). -/
structure LimiterState where
  globalLimiter : Limiter
  clientLimiters : List (String × ClientEntry)
  deriving Repr, DecidableEq

/-- Association-list lookup (Go map read). -/
def lookupClient (m : List (String × ClientEntry)) (ip : String) : Option ClientEntry :=
  match m.find? (fun p => p.1 = ip) with
  | none => none
  | some p => some p.2

/-- Association-list update: replace the value stored at `ip` (Go map write
to an existing key). -/
def updateClient (m : List (String × ClientEntry)) (ip : String) (e : ClientEntry) :
    List (String × ClientEntry) :=
  m.map (fun p => if p.1 = ip then (p.1, e) else p)

/-- An inbound HTTP request, restricted to the fields the core reads. -/
structure Request where
  method : String
  path : String
  xRealIP : String
  xForwardedFor : String
  remoteAddr : String
  deriving Repr, DecidableEq

/-- `strings.Split(s, sep)` for a one-character separator, on `List Char`. -/
def goSplitChar (sep : Char) : List Char → List (List Char)
  | [] => [[]]
  | c :: cs =>
    if c = sep then [] :: goSplitChar sep cs
    else
      match goSplitChar sep cs with
      | [] => [[c]]
      | g :: gs => (c :: g) :: gs

/-- `strings.Split(s, sep)` for a one-character separator. -/
def goSplit (s : String) (sep : Char) : List String :=
  (goSplitChar sep s.toList).map String.mk

/-- Whitespace as trimmed by `strings.TrimSpace` (restricted to the ASCII
space characters, the only ones that occur in header values). -/
def isSpaceChar (c : Char) : Bool :=
  c = ' ' || c = '\t' || c = '\n' || c = '\r'

/-- `strings.TrimSpace` on `List Char`. -/
def trimChars (cs : List Char) : List Char :=
  ((cs.dropWhile isSpaceChar).reverse.dropWhile isSpaceChar).reverse

/-- `strings.TrimSpace`. -/
def goTrimSpace (s : String) : String :=
  String.mk (trimChars s.toList)

/-- `strings.LastIndex(s, c)` for a one-character needle, as an optional
character index. -/
def goLastIndex (cs : List Char) (c : Char) : Option Nat :=
  match cs.reverse.findIdx? (fun x => x = c) with
  | none => none
  | some j => some (cs.length - 1 - j)

/-- `getClientIP`: the trusted-proxy header if set, else the first
comma-separated element of the forwarded-for header trimmed, else the
peer address truncated at its last colon (the whole address when it has
no colon). -/
def getClientIP (r : Request) : String :=
  if r.xRealIP ≠ "" then r.xRealIP
  else if r.xForwardedFor ≠ "" then
    goTrimSpace ((goSplit r.xForwardedFor ',').headD "")
  else
    match goLastIndex r.remoteAddr.toList ':' with
    | none => r.remoteAddr
    | some pos => String.mk (r.remoteAddr.toList.take pos)

/-- Result of `getClientLimiter`: the limiter chosen for the client (a
pointer into the map in Go, so `checkLimits` later writes the consumed
bucket back) and the updated map. -/
structure GetLimiterOut where
  limiter : Limiter
  clientLimiters : List (String × ClientEntry)
  deriving Repr, DecidableEq

/-- `getClientLimiter(ip)`: return the existing limiter for `ip`,
refreshing `lastSeen`, or install a fresh `ClientRate`/`ClientBurst`
limiter for a previously unseen client. -/
def getClientLimiter (m : List (String × ClientEntry)) (ip : String) (now : ℚ) :
    GetLimiterOut :=
  match lookupClient m ip with
  | some e =>
    { limiter := e.limiter, clientLimiters := updateClient m ip { e with lastSeen := now } }
  | none =>
    let l := NewLimiter (1 / ClientRate) ClientBurst
    { limiter := l, clientLimiters := (ip, { limiter := l, lastSeen := now }) :: m }

/-- The three possible admission outcomes of `checkLimits` (in Go, `nil`
or one of two error values). -/
inductive AdmissionResult
  | admitted
  | globalLimited
  | clientLimited
  deriving Repr, DecidableEq

/-- Result of `checkLimits`: the decision plus the updated limiter state. -/
structure CheckOut where
  result : AdmissionResult
  state : LimiterState
  deriving Repr, DecidableEq

/-- Writing through the `*rate.Limiter` pointer returned by
`getClientLimiter` updates the bucket held in the map entry while leaving
`lastSeen` as `getClientLimiter` set it. -/
def updateClientLimiter (m : List (String × ClientEntry)) (ip : String) (l : Limiter) :
    List (String × ClientEntry) :=
  m.map (fun p => if p.1 = ip then (p.1, { p.2 with limiter := l }) else p)

/-- `checkLimits(r)`: consult the global limiter first; on rejection
return immediately (the client map untouched); otherwise derive the
client key, fetch or create the client limiter, consume from it, and
report which tier (if any) rejected.  The global token consumed in the
first step is never returned. -/
def checkLimits (st : LimiterState) (r : Request) (now : ℚ) : CheckOut :=
  let g := st.globalLimiter.Allow now
  if g.ok = false then
    { result := .globalLimited, state := { st with globalLimiter := g.limiter } }
  else
    let clientIP := getClientIP r
    let cl := getClientLimiter st.clientLimiters clientIP now
    let a := cl.limiter.Allow now
    let m := updateClientLimiter cl.clientLimiters clientIP a.limiter
    if a.ok = false then
      { result := .clientLimited, state := { globalLimiter := g.limiter, clientLimiters := m } }
    else
      { result := .admitted, state := { globalLimiter := g.limiter, clientLimiters := m } }

/-- `time.Minute` in seconds. -/
def minute : ℚ := 60

/-- The cached installation credential: the package-level variables
`installationToken` and `installationTokenExpiry`. -/
structure TokenCache where
  installationToken : String
  installationTokenExpiry : ℚ
  deriving Repr, DecidableEq

/-- Outcome of one credential-mint attempt as the cache logic in
`getInstallationToken` distinguishes them: JWT generation failure,
exchange failure, or a fresh token with the expiry value the exchange
returned.  The attempt the code actually performs is `mintOfExchange`
below, which composes `GenerateJWT` with the `GetInstallationToken`
exchange; in particular the expiry of a successful attempt is always
the mint time plus one hour, never the upstream-reported `expires_at`. -/
inductive MintOutcome
  | jwtError
  | exchangeError
  | success (token : String) (expiry : ℚ)
  deriving Repr, DecidableEq

/-- `time.Hour` in seconds. -/
def hour : ℚ := 3600

/-- The JSON body of a successful token-exchange response.  GitHub also
reports an absolute `expires_at` alongside the token; the struct the
code decodes has only the `token` field, so `expiresAt` is carried here
to express what upstream reported, and `GetInstallationToken` never
reads it. -/
structure TokenBody where
  token : String
  expiresAt : ℚ
  deriving Repr

/-- Outcome of the exchange request
`POST /app/installations/{id}/access_tokens` as the network delivers
it: transport failure, or a response with a status code whose body then
parses into a `TokenBody` or fails to parse. -/
inductive ExchangeResponse
  | transportError
  | httpResponse (code : Nat) (body : Except Unit TokenBody)
  deriving Repr

/-- `GetInstallationToken(jwt)`: fail on a transport error, on any
status other than 201 Created, or on a body that does not parse; on
success return the body's token together with
`time.Now().Add(time.Hour)` — the upstream-reported `expires_at` is
discarded (it is not even part of the decoded struct). -/
def GetInstallationToken (resp : ExchangeResponse) (now : ℚ) :
    Except String (String × ℚ) :=
  match resp with
  | .transportError => .error "failed to fetch installation token"
  | .httpResponse code body =>
    if code ≠ 201 then .error "failed to get installation token"
    else
      match body with
      | .error _ => .error "failed to parse response"
      | .ok b => .ok (b.token, now + hour)

/-- The mint attempt `getInstallationToken` performs when the cache is
invalid: `GenerateJWT` (whose crypto either signs or fails, an oracle
Bool) followed by the `GetInstallationToken` exchange, classified into
the attempt outcome the cache logic acts on. -/
def mintOfExchange (jwtFails : Bool) (resp : ExchangeResponse) (now : ℚ) : MintOutcome :=
  if jwtFails then .jwtError
  else
    match GetInstallationToken resp now with
    | .error _ => .exchangeError
    | .ok (token, expiry) => .success token expiry

/-- Result of one `getInstallationToken()` call: the returned token or
error, the cache state after the call, and how many mint attempts the
call performed. -/
structure GetTokenOut where
  result : Except String String
  cache : TokenCache
  mintCalls : Nat
  deriving Repr

/-- `getInstallationToken()`: under the token mutex, return the cached
token while `now < installationTokenExpiry`; otherwise mint once —
on JWT or exchange failure return the error with the cache untouched,
on success store the token and the reported expiry minus three minutes
and return the fresh token. -/
def getInstallationToken (cache : TokenCache) (now : ℚ) (mint : MintOutcome) :
    GetTokenOut :=
  if now < cache.installationTokenExpiry then
    { result := .ok cache.installationToken, cache := cache, mintCalls := 0 }
  else
    match mint with
    | .jwtError =>
      { result := .error "failed to generate JWT", cache := cache, mintCalls := 1 }
    | .exchangeError =>
      { result := .error "failed to get installation token", cache := cache, mintCalls := 1 }
    | .success token expiry =>
      { result := .ok token
        cache := { installationToken := token
                   installationTokenExpiry := expiry - 3 * minute }
        mintCalls := 1 }

/-- `n` consecutive `getInstallationToken()` calls at the same instant
with the same mint oracle (the token mutex serializes concurrent callers,
so any interleaving of `n` concurrent calls executes as this sequence).
Returns every call's result, the final cache, and the total number of
mint attempts. -/
def runGets : Nat → TokenCache → ℚ → MintOutcome →
    List (Except String String) × TokenCache × Nat
  | 0, cache, _, _ => ([], cache, 0)
  | n + 1, cache, now, mint =>
    let g := getInstallationToken cache now mint
    let rest := runGets n g.cache now mint
    (g.result :: rest.1, rest.2.1, g.mintCalls + rest.2.2)

/-- The base64 value of one standard-alphabet character. -/
def b64Val (c : Char) : Option Nat :=
  if 'A' ≤ c ∧ c ≤ 'Z' then some (c.toNat - 'A'.toNat)
  else if 'a' ≤ c ∧ c ≤ 'z' then some (c.toNat - 'a'.toNat + 26)
  else if '0' ≤ c ∧ c ≤ '9' then some (c.toNat - '0'.toNat + 52)
  else if c = '+' then some 62
  else if c = '/' then some 63
  else none

/-- Decode a base64 text whose newlines have already been removed,
quantum by quantum; the length must be a multiple of four and `=`
padding is legal only in the last quantum. -/
def b64DecodeChars : List Char → Option (List Nat)
  | [] => some []
  | a :: b :: c :: d :: rest => do
    let va ← b64Val a
    let vb ← b64Val b
    if c = '=' then
      if d = '=' ∧ rest = [] then some [va * 4 + vb / 16] else none
    else
      let vc ← b64Val c
      if d = '=' then
        if rest = [] then some [va * 4 + vb / 16, (vb % 16) * 16 + vc / 4] else none
      else
        let vd ← b64Val d
        let tail ← b64DecodeChars rest
        some ([va * 4 + vb / 16, (vb % 16) * 16 + vc / 4, (vc % 4) * 64 + vd] ++ tail)
  | _ => none

/-- `base64.StdEncoding.DecodeString`: carriage returns and newlines are
ignored, everything else must be well-formed padded standard base64. -/
def base64Decode (s : String) : Option (List Nat) :=
  b64DecodeChars (s.toList.filter (fun c => c ≠ '\n' ∧ c ≠ '\r'))

/-- The JSON document GitHub returns for a contents request, restricted
to the fields the proxy decodes. -/
structure FileData where
  content : String
  name : String
  encoding : String
  size : Int
  downloadURL : String
  deriving Repr, DecidableEq

/-- Outcome of the metadata request `GET /repos/{owner}/{repo}/contents/{path}`:
either the transport fails, or a response with some status code arrives
whose body then either parses into `FileData` or fails to parse. -/
inductive MetaResponse
  | transportError
  | httpResponse (code : Nat) (body : Except Unit FileData)
  deriving Repr

/-- Outcome of the `download_url` request: either the transport fails, or
a body arrives whose streamed read yields bytes or fails.  (The code never
checks this response's status code.) -/
inductive DownloadResponse
  | transportError
  | body (bytes : Except Unit (List Nat))
  deriving Repr

/-- The upstream world a single `GetFileContent` call interacts with:
the two HTTP outcomes plus the two content-type oracles
(`mime.TypeByExtension`, which returns `""` for an unknown extension, and
`mimetype.Detect`, whose `nil` result the code guards against). -/
structure Upstream where
  meta : MetaResponse
  download : DownloadResponse
  mimeByExt : String → String
  sniff : List Nat → Option String

/-- The distinct failure modes of `GetFileContent` (in Go, distinct
wrapped error values). -/
inductive FetchError
  | fetchTransport
  | upstreamStatus (code : Nat)
  | parseBody
  | downloadTransport
  | readBody
  | decodeContent
  deriving Repr, DecidableEq

/-- `filepath.Ext(name)`: the suffix starting at the final dot of the
final slash-separated element, empty when that element has no dot. -/
def filepathExt (name : String) : String :=
  let base := (goSplitChar '/' name.toList).getLastD []
  match goLastIndex base '.' with
  | none => ""
  | some i => String.mk (base.drop i)

/-- `GetFileContent(owner, repo, path, token)`: request the metadata;
fail on transport error, non-200 status or a body that does not parse;
then fetch the raw bytes through the `download_url` when the reported
size exceeds 1 MiB and by base64-decoding the inline `content` field
otherwise; finally resolve the content type by extension, then by
sniffing, then by the fixed fallback. -/
def GetFileContent (_owner _repo _path _token : String) (u : Upstream) :
    Except FetchError (List Nat × String) :=
  match u.meta with
  | .transportError => .error .fetchTransport
  | .httpResponse code body =>
    if code ≠ 200 then .error (.upstreamStatus code)
    else
      match body with
      | .error _ => .error .parseBody
      | .ok fileData =>
        let ext := filepathExt fileData.name
        let contentRes : Except FetchError (List Nat) :=
          if fileData.size > 1024 * 1024 then
            match u.download with
            | .transportError => .error .downloadTransport
            | .body (.error _) => .error .readBody
            | .body (.ok bs) => .ok bs
          else
            match base64Decode fileData.content with
            | none => .error .decodeContent
            | some bs => .ok bs
        match contentRes with
        | .error e => .error e
        | .ok content =>
          let fromExt := u.mimeByExt ext
          let contentType :=
            if fromExt = "" then
              match u.sniff content with
              | some m => m
              | none => "application/octet-stream"
            else fromExt
          .ok (content, contentType)

/-- The `rate.NewLimiter(rate.Every(duration/time.Duration(limit)), limit)`
construction performed by `initGlobalLimiter`, recorded as its two
arguments: the refill interval in nanoseconds and the bucket capacity. -/
structure GlobalLimiterConfig where
  refillInterval : Int
  capacity : Int
  deriving Repr, DecidableEq

/-- `initGlobalLimiter(token)` after a successful `fetchRateLimit` call
reporting core limit `limit` and reset time `reset` (times in
nanoseconds, as Go `time.Duration` values): compute
`duration = time.Until(reset)` and build the global limiter from
`duration / limit` and `limit`.  The Go quotient is a variable `int64`
division, which panics when `limit = 0`; the panic is modelled as
`none`.  No zero guard exists in the code. -/
def initGlobalLimiter (limit : Int) (reset : Int) (now : Int) : Option GlobalLimiterConfig :=
  let duration := reset - now
  if limit = 0 then none
  else some { refillInterval := Int.tdiv duration limit, capacity := limit }

/-- The seven checks of the request pipeline, in source order. -/
inductive Step
  | liveness
  | rateGate
  | methodCheck
  | credential
  | pathParse
  | pathSafety
  | fetch
  deriving Repr, DecidableEq

/-- The pipeline's checks in the order `requestHandler` runs them. -/
def pipelineOrder : List Step :=
  [.liveness, .rateGate, .methodCheck, .credential, .pathParse, .pathSafety, .fetch]

/-- The HTTP status `requestHandler` writes when a given check fails. -/
def stepStatus : Step → Nat
  | .liveness => 503
  | .rateGate => 429
  | .methodCheck => 405
  | .credential => 500
  | .pathParse => 400
  | .pathSafety => 403
  | .fetch => 404

/-- `strings.SplitN(s, sep, n)` for a one-character separator, on
`List Char`: at most `n` pieces, the last piece keeping the unsplit
remainder. -/
def goSplitNChar (sep : Char) : Nat → List Char → List (List Char)
  | 0, _ => []
  | 1, cs => [cs]
  | n + 2, cs =>
    match cs.findIdx? (fun x => x = sep) with
    | none => [cs]
    | some i => cs.take i :: goSplitNChar sep (n + 1) (cs.drop (i + 1))

/-- `strings.SplitN(s, sep, n)` for a one-character separator. -/
def goSplitN (s : String) (sep : Char) (n : Nat) : List String :=
  (goSplitNChar sep n s.toList).map String.mk

/-- The body of the path-safety loop: `len(elem) > 0 && elem[0] == '.'`. -/
def segStartsWithDot : List Char → Bool
  | [] => false
  | c :: _ => c = '.'

/-- The path-safety loop over `strings.Split(filePath, "/")`: does any
segment of the file path start with a dot? -/
def hasDotSegment (filePath : String) : Bool :=
  (goSplitChar '/' filePath.toList).any segStartsWithDot

/-- The whole mutable package state the pipeline touches: the two
rate-limit tiers and the credential cache. -/
structure ProxyState where
  limiters : LimiterState
  cache : TokenCache
  deriving Repr, DecidableEq

/-- What `requestHandler` writes back on one request: the status code,
the body bytes and `Content-Type` header of a success. -/
structure Response where
  status : Nat
  body : Option (List Nat)
  contentType : Option String
  deriving Repr, DecidableEq

/-- Everything observable about one `requestHandler` execution: the
response, the package state after the request, the checks that executed
in order, the number of mint attempts, and what the content fetch
returned when it ran. -/
structure HandlerResult where
  response : Response
  state : ProxyState
  trace : List Step
  mintCalls : Nat
  fetchResult : Option (Except FetchError (List Nat × String))

/-- `requestHandler`: the straight-line short-circuit pipeline —
liveness, rate-gate admission, method, credential, path parse into at
least `owner`/`repo`/`path`, path safety, content fetch — where the
first failing check writes its status and returns. -/
def requestHandler (ctxCancelled : Bool) (r : Request) (now : ℚ)
    (mint : MintOutcome) (u : Upstream) (st : ProxyState) : HandlerResult :=
  if ctxCancelled then
    { response := { status := 503, body := none, contentType := none }
      state := st, trace := [.liveness], mintCalls := 0, fetchResult := none }
  else
    let c := checkLimits st.limiters r now
    let st := { st with limiters := c.state }
    if c.result ≠ .admitted then
      { response := { status := 429, body := none, contentType := none }
        state := st, trace := [.liveness, .rateGate], mintCalls := 0, fetchResult := none }
    else if r.method ≠ "GET" then
      { response := { status := 405, body := none, contentType := none }
        state := st, trace := [.liveness, .rateGate, .methodCheck]
        mintCalls := 0, fetchResult := none }
    else
      let g := getInstallationToken st.cache now mint
      let st := { st with cache := g.cache }
      match g.result with
      | .error _ =>
        { response := { status := 500, body := none, contentType := none }
          state := st, trace := [.liveness, .rateGate, .methodCheck, .credential]
          mintCalls := g.mintCalls, fetchResult := none }
      | .ok installationToken =>
        let parts := goSplitN r.path '/' 4
        if parts.length < 4 then
          { response := { status := 400, body := none, contentType := none }
            state := st
            trace := [.liveness, .rateGate, .methodCheck, .credential, .pathParse]
            mintCalls := g.mintCalls, fetchResult := none }
        else
          let owner := parts.getD 1 ""
          let repo := parts.getD 2 ""
          let filePath := parts.getD 3 ""
          if hasDotSegment filePath then
            { response := { status := 403, body := none, contentType := none }
              state := st
              trace := [.liveness, .rateGate, .methodCheck, .credential, .pathParse,
                        .pathSafety]
              mintCalls := g.mintCalls, fetchResult := none }
          else
            match GetFileContent owner repo filePath installationToken u with
            | .error _ =>
              { response := { status := 404, body := none, contentType := none }
                state := st, trace := pipelineOrder
                mintCalls := g.mintCalls
                fetchResult := some (GetFileContent owner repo filePath installationToken u) }
            | .ok res =>
              { response := { status := 200, body := some res.1, contentType := some res.2 }
                state := st, trace := pipelineOrder
                mintCalls := g.mintCalls
                fetchResult := some (GetFileContent owner repo filePath installationToken u) }

/-- A full global bucket for concrete test runs. -/
def testLimiter : Limiter := { limit := 1, burst := 8, tokens := 8, lastTime := 0 }

/-- An empty bucket: rejects immediately at time 0. -/
def emptyLimiter : Limiter := { limit := 1, burst := 8, tokens := 0, lastTime := 0 }

/-- A permissive package state for concrete test runs: full global
bucket, no known clients, a cached token valid until time 100. -/
def testState : ProxyState :=
  { limiters := { globalLimiter := testLimiter, clientLimiters := [] }
    cache := { installationToken := "cached-token", installationTokenExpiry := 100 } }

/-- A healthy upstream for concrete test runs: metadata with a 13-byte
inline payload (`"Hello, World!"` in base64), no extension match, and a
sniffer reporting `text/plain`. -/
def testUpstream : Upstream :=
  { meta := .httpResponse 200 (.ok { content := "SGVsbG8sIFdvcmxkIQ==", name := "README.md"
                                     encoding := "base64", size := 13, downloadURL := "dl" })
    download := .body (.ok [1, 2, 3])
    mimeByExt := fun _ => ""
    sniff := fun _ => some "text/plain" }

/-- A plain GET request against the given path. -/
def testReq (p : String) : Request :=
  { method := "GET", path := p, xRealIP := "", xForwardedFor := ""
    remoteAddr := "1.2.3.4:5678" }

/-- Spec-side restatement for the client key: the first comma-separated
element of a forwarded-for header value. -/
def firstForwardedElement (s : String) : String :=
  String.mk (s.toList.takeWhile (fun c => c ≠ ','))

/-- Spec-side restatement for the client key: the peer address with its
port stripped — everything strictly before the last colon separator, or
the whole address when it contains none. -/
def peerWithoutPort (s : String) : String :=
  if s.toList.contains ':' then
    String.mk (((s.toList.reverse.dropWhile (fun c => c ≠ ':')).drop 1).reverse)
  else s

/-- Spec-side restatement of the client-key derivation precedence:
trusted-proxy header, then forwarded-for first element trimmed, then
peer address without its port. -/
def clientKeySpec (r : Request) : String :=
  if r.xRealIP ≠ "" then r.xRealIP
  else if r.xForwardedFor ≠ "" then goTrimSpace (firstForwardedElement r.xForwardedFor)
  else peerWithoutPort r.remoteAddr

/-- The limiter state left by one admitted request from the test client
at time 50. -/
def testStateAfter : LimiterState :=
  { globalLimiter := { limit := 1, burst := 8, tokens := 7, lastTime := 50 }
    clientLimiters :=
      [("1.2.3.4", { limiter := { limit := 1, burst := 8, tokens := 7, lastTime := 50 }
                     lastSeen := 50 })] }

/-- The permissive test state with an already-expired cached token. -/
def testStateExpired : ProxyState :=
  { limiters := { globalLimiter := testLimiter, clientLimiters := [] }
    cache := { installationToken := "cached-token", installationTokenExpiry := 0 } }

/-- An upstream whose metadata reports a size above the 1 MiB threshold,
with a two-byte streamed download body. -/
def testUpstreamBig : Upstream :=
  { meta := .httpResponse 200 (.ok { content := "", name := "big.bin"
                                     encoding := "base64", size := 2000000, downloadURL := "dl" })
    download := .body (.ok [9, 9])
    mimeByExt := fun _ => ""
    sniff := fun _ => none }

/-- An upstream whose metadata request fails at the transport layer. -/
def testUpstreamDown : Upstream :=
  { meta := .transportError
    download := .transportError
    mimeByExt := fun _ => ""
    sniff := fun _ => none }

/-! ## Theorems -/

/-- `runGets` over a cache that is still valid at `now`: every call is a
cache hit, nothing is minted and the cache never changes. -/
theorem runGets_valid (m : Nat) (cache : TokenCache) (now : ℚ) (mint : MintOutcome)
    (h : now < cache.installationTokenExpiry) :
    runGets m cache now mint = (List.replicate m (.ok cache.installationToken), cache, 0) := by
  induction m with
  | zero => simp [runGets]
  | succ k ih => simp [runGets, getInstallationToken, h, ih, List.replicate_succ]

/-- C2 counterexample: a successful refresh at time 0 whose exchange
response reports the upstream expiry `expires_at = 1800` stores
`effectiveExpiry = (0 + 3600) - 180 = 3420`, not the upstream-reported
expiry minus the margin, `1800 - 180 = 1620` — `GetInstallationToken`
returns the fixed mint time plus one hour and discards `expires_at`. -/
theorem getInstallationToken_ignores_reported_expiry :
    (getInstallationToken ⟨"cached-token", 0⟩ 0
        (mintOfExchange false (.httpResponse 201 (.ok ⟨"fresh", 1800⟩)) 0)).result
      = .ok "fresh" ∧
    (getInstallationToken ⟨"cached-token", 0⟩ 0
        (mintOfExchange false (.httpResponse 201 (.ok ⟨"fresh", 1800⟩)) 0)
      ).cache.installationTokenExpiry = 3420 ∧
    (1800 : ℚ) - 3 * minute = 1620 ∧ (3420 : ℚ) ≠ 1620 := by
  refine ⟨?_, ?_, by norm_num [minute], by norm_num⟩ <;>
    norm_num [mintOfExchange, GetInstallationToken, getInstallationToken, hour, minute]

/-- C2 (amended): after every successful refresh the cached
`effectiveExpiry` is the expiry value the exchange returns — the mint
time plus one hour, irrespective of the upstream-reported `expires_at`
— minus the fixed three-minute safety margin, and
`getInstallationToken` returns the cached token without minting exactly
when `now < effectiveExpiry` (a mint is attempted otherwise). -/
theorem getInstallationToken_effectiveExpiry (cache : TokenCache) (now : ℚ)
    (jwtFails : Bool) (resp : ExchangeResponse) (b : TokenBody) :
    (now < cache.installationTokenExpiry →
      (getInstallationToken cache now (mintOfExchange jwtFails resp now)).result
        = .ok cache.installationToken ∧
      (getInstallationToken cache now (mintOfExchange jwtFails resp now)).mintCalls = 0 ∧
      (getInstallationToken cache now (mintOfExchange jwtFails resp now)).cache = cache) ∧
    (¬ now < cache.installationTokenExpiry →
      0 < (getInstallationToken cache now (mintOfExchange jwtFails resp now)).mintCalls) ∧
    (¬ now < cache.installationTokenExpiry → jwtFails = false →
      resp = .httpResponse 201 (.ok b) →
      (getInstallationToken cache now
          (mintOfExchange jwtFails resp now)).cache.installationToken = b.token ∧
      (getInstallationToken cache now
          (mintOfExchange jwtFails resp now)).cache.installationTokenExpiry
        = (now + hour) - 3 * minute ∧
      (getInstallationToken cache now (mintOfExchange jwtFails resp now)).result
        = .ok b.token) := by
  refine ⟨fun h => ?_, fun h => ?_, fun h hj hr => ?_⟩
  · simp [getInstallationToken, h]
  · cases mintOfExchange jwtFails resp now <;> simp [getInstallationToken, h]
  · subst hj; subst hr
    simp [mintOfExchange, GetInstallationToken, getInstallationToken, h]

/-- Witness for C2 at concrete inputs: a valid cache is returned as is;
an expired cache refreshed at time 200 through a 201 exchange stores
`(200 + hour) - 180`, whatever expiry upstream reported. -/
theorem getInstallationToken_effectiveExpiry_witness :
    (getInstallationToken ⟨"cached-token", 100⟩ 50
        (mintOfExchange false (.httpResponse 201 (.ok ⟨"fresh", 1800⟩)) 50)).result
      = .ok "cached-token" ∧
    (getInstallationToken ⟨"cached-token", 100⟩ 200
        (mintOfExchange false (.httpResponse 201 (.ok ⟨"fresh", 1800⟩)) 200)
      ).cache.installationTokenExpiry = (200 + hour) - 3 * minute :=
  ⟨((getInstallationToken_effectiveExpiry ⟨"cached-token", 100⟩ 50 false
      (.httpResponse 201 (.ok ⟨"fresh", 1800⟩)) ⟨"fresh", 1800⟩).1 (by norm_num)).1,
   ((getInstallationToken_effectiveExpiry ⟨"cached-token", 100⟩ 200 false
      (.httpResponse 201 (.ok ⟨"fresh", 1800⟩)) ⟨"fresh", 1800⟩).2.2
      (by norm_num) rfl rfl).2.1⟩

/-- C8: when the mint fails (JWT generation or the token exchange), the
cache is left exactly as it was, the error is returned, the call makes
exactly one mint attempt (no retry), and the next call that finds the
cache invalid attempts the mint again. -/
theorem getInstallationToken_mint_failure (cache : TokenCache) (now : ℚ)
    (mint : MintOutcome)
    (hinv : ¬ now < cache.installationTokenExpiry)
    (hfail : mint = .jwtError ∨ mint = .exchangeError) :
    (getInstallationToken cache now mint).cache = cache ∧
    (∃ msg, (getInstallationToken cache now mint).result = .error msg) ∧
    (getInstallationToken cache now mint).mintCalls = 1 ∧
    (getInstallationToken (getInstallationToken cache now mint).cache now mint).mintCalls
      = 1 := by
  rcases hfail with h | h <;> subst h <;> simp [getInstallationToken, hinv]

/-- Witness for C8 at a concrete expired cache and a failing exchange. -/
theorem getInstallationToken_mint_failure_witness :
    (getInstallationToken ⟨"cached-token", 100⟩ 200 .exchangeError).cache
      = ⟨"cached-token", 100⟩ ∧
    (getInstallationToken ⟨"cached-token", 100⟩ 200 .exchangeError).mintCalls = 1 :=
  ⟨(getInstallationToken_mint_failure ⟨"cached-token", 100⟩ 200 .exchangeError
      (by norm_num) (Or.inr rfl)).1,
   (getInstallationToken_mint_failure ⟨"cached-token", 100⟩ 200 .exchangeError
      (by norm_num) (Or.inr rfl)).2.2.1⟩

/-- A successful mint attempt of the code always reports its expiry one
hour after the mint time, whatever the exchange response contained. -/
theorem mintOfExchange_success_expiry (jwtFails : Bool) (resp : ExchangeResponse)
    (now : ℚ) (token : String) (expiry : ℚ)
    (h : mintOfExchange jwtFails resp now = .success token expiry) :
    expiry = now + hour := by
  by_cases hj : jwtFails
  · simp [mintOfExchange, hj] at h
  · cases resp with
    | transportError => simp [mintOfExchange, hj, GetInstallationToken] at h
    | httpResponse code body =>
      by_cases hcode : code = 201
      · subst hcode
        cases body with
        | error e => simp [mintOfExchange, hj, GetInstallationToken] at h
        | ok b =>
          simp [mintOfExchange, hj, GetInstallationToken] at h
          exact h.2.symm
      · simp [mintOfExchange, hj, GetInstallationToken, hcode] at h

/-- `runGets` over an invalid cache with a failing mint: every call
performs its own mint attempt, the cache never changes, and every
caller observes the same mint error. -/
theorem runGets_invalid_failure (n : Nat) (cache : TokenCache) (now : ℚ)
    (mint : MintOutcome) (hinv : ¬ now < cache.installationTokenExpiry)
    (hfail : mint = .jwtError ∨ mint = .exchangeError) :
    (runGets n cache now mint).2.2 = n ∧
    (runGets n cache now mint).2.1 = cache ∧
    (runGets n cache now mint).1
      = List.replicate n (getInstallationToken cache now mint).result := by
  induction n with
  | zero => simp [runGets]
  | succ k ih =>
    have hc : (getInstallationToken cache now mint).cache = cache := by
      rcases hfail with h | h <;> subst h <;> simp [getInstallationToken, hinv]
    have hm : (getInstallationToken cache now mint).mintCalls = 1 := by
      rcases hfail with h | h <;> subst h <;> simp [getInstallationToken, hinv]
    refine ⟨?_, ?_, ?_⟩ <;>
      simp [runGets, hc, hm, ih.1, ih.2.1, ih.2.2, List.replicate_succ]
    omega

/-- C9 counterexample: three serialized `getInstallationToken()` calls
against an invalid cache whose mint fails perform three mint attempts,
not exactly one. -/
theorem getInstallationToken_not_single_flight :
    (runGets 3 ⟨"cached-token", 0⟩ 50 .exchangeError).2.2 = 3 ∧ (3 : Nat) ≠ 1 := by
  refine ⟨?_, by norm_num⟩
  exact (runGets_invalid_failure 3 ⟨"cached-token", 0⟩ 50 .exchangeError
    (by norm_num) (Or.inr rfl)).1

/-- C9 (amended): the token mutex serializes concurrent `Get()` callers
into a sequence; for any number of consecutive calls finding the cache
invalid, a mint attempt that succeeds happens exactly once — the code's
exchange always reports expiry one hour out, so the refreshed credential
is still valid for every waiting caller — and every caller observes
that refresh's token; a failing mint attempt is instead repeated by
every caller, each observing its own mint error. -/
theorem getInstallationToken_single_flight (n : Nat) (cache : TokenCache) (now : ℚ)
    (jwtFails : Bool) (resp : ExchangeResponse)
    (hinv : ¬ now < cache.installationTokenExpiry) :
    (∀ token expiry, mintOfExchange jwtFails resp now = .success token expiry →
      (runGets (n + 1) cache now (.success token expiry)).2.2 = 1 ∧
      (runGets (n + 1) cache now (.success token expiry)).1
        = List.replicate (n + 1) (.ok token)) ∧
    ((mintOfExchange jwtFails resp now = .jwtError ∨
      mintOfExchange jwtFails resp now = .exchangeError) →
      (runGets (n + 1) cache now (mintOfExchange jwtFails resp now)).2.2 = n + 1 ∧
      (∃ msg, (runGets (n + 1) cache now (mintOfExchange jwtFails resp now)).1
        = List.replicate (n + 1) (.error msg))) := by
  constructor
  · intro token expiry hm
    have hexp := mintOfExchange_success_expiry jwtFails resp now token expiry hm
    have hfresh : now < expiry - 3 * minute := by
      rw [hexp]
      have h0 : (0 : ℚ) < hour - 3 * minute := by norm_num [hour, minute]
      linarith
    have h1 : getInstallationToken cache now (.success token expiry)
        = { result := .ok token
            cache := { installationToken := token
                       installationTokenExpiry := expiry - 3 * minute }
            mintCalls := 1 } := by
      simp [getInstallationToken, hinv]
    have h2 := runGets_valid n
      { installationToken := token, installationTokenExpiry := expiry - 3 * minute }
      now (.success token expiry) (by simpa using hfresh)
    constructor <;> simp [runGets, h1, h2, List.replicate_succ]
  · intro hfail
    have h := runGets_invalid_failure (n + 1) cache now
      (mintOfExchange jwtFails resp now) hinv hfail
    refine ⟨h.1, ?_⟩
    rcases hfail with hm | hm
    · refine ⟨"failed to generate JWT", ?_⟩
      rw [h.2.2, hm]
      simp [getInstallationToken, hinv]
    · refine ⟨"failed to get installation token", ?_⟩
      rw [h.2.2, hm]
      simp [getInstallationToken, hinv]

/-- Witness for C9: three calls against an expired cache through a
successful exchange mint once; three calls whose exchange fails at the
transport layer mint three times. -/
theorem getInstallationToken_single_flight_witness :
    (runGets 3 ⟨"cached-token", 0⟩ 50 (.success "fresh" (50 + hour))).2.2 = 1 ∧
    (runGets 3 ⟨"cached-token", 0⟩ 50 .exchangeError).2.2 = 3 :=
  ⟨((getInstallationToken_single_flight 2 ⟨"cached-token", 0⟩ 50 false
      (.httpResponse 201 (.ok ⟨"fresh", 1800⟩)) (by norm_num)).1
      "fresh" (50 + hour) rfl).1,
   ((getInstallationToken_single_flight 2 ⟨"cached-token", 0⟩ 50 false
      .transportError (by norm_num)).2 (Or.inr rfl)).1⟩

/-- C10: the global-limiter initialization divides the time to reset by
the quota-reported limit with no zero guard — `limit = 0` makes the
division panic (`none`), any nonzero limit yields a limiter, and every
positive limit yields capacity `limit` with refill interval
`(reset - now) / limit`. -/
theorem initGlobalLimiter_division (limit reset now : Int) :
    initGlobalLimiter 0 reset now = none ∧
    (limit ≠ 0 → ∃ cfg, initGlobalLimiter limit reset now = some cfg) ∧
    (0 < limit →
      initGlobalLimiter limit reset now
        = some { refillInterval := Int.tdiv (reset - now) limit, capacity := limit }) := by
  refine ⟨by simp [initGlobalLimiter], fun h => ?_, fun h => by
    simp [initGlobalLimiter, ne_of_gt h]⟩
  exact ⟨{ refillInterval := Int.tdiv (reset - now) limit, capacity := limit },
    by simp [initGlobalLimiter, h]⟩

/-- Witness for C10: a 5000-request window of one hour (in nanoseconds)
refills one token per 720 ms; a zero limit has no defined limiter. -/
theorem initGlobalLimiter_division_witness :
    initGlobalLimiter 0 3600000000000 0 = none ∧
    initGlobalLimiter 5000 3600000000000 0
      = some { refillInterval := 720000000, capacity := 5000 } := by
  refine ⟨(initGlobalLimiter_division 5000 3600000000000 0).1, ?_⟩
  have h := (initGlobalLimiter_division 5000 3600000000000 0).2.2 (by norm_num)
  simpa using h


/-- An admitted `Allow` call leaves the bucket exactly one token below
its refilled level. -/
theorem Limiter.Allow_ok_tokens (l : Limiter) (now : ℚ)
    (h : (l.Allow now).ok = true) :
    (l.Allow now).limiter.tokens = (l.advance now).tokens - 1 := by
  by_cases h1 : 1 ≤ (l.advance now).tokens
  · simp [Limiter.Allow, h1]
  · simp [Limiter.Allow, h1] at h

/-- The global limiter after `checkLimits` is always the bucket left by
the one global `Allow` call. -/
theorem checkLimits_globalLimiter (st : LimiterState) (r : Request) (now : ℚ) :
    (checkLimits st r now).state.globalLimiter = (st.globalLimiter.Allow now).limiter := by
  simp only [checkLimits]
  split
  · rfl
  · split <;> rfl

/-- C4: the global bucket is consulted first — a global rejection yields
`GlobalLimited` with the per-client map (buckets and `lastSeen` alike)
untouched; when the global bucket admits and the client bucket then
rejects, the result is `ClientLimited` and the consumed global token is
not refunded: the global bucket still sits one token below its refilled
level. -/
theorem checkLimits_global_first (st : LimiterState) (r : Request) (now : ℚ) :
    ((st.globalLimiter.Allow now).ok = false →
      (checkLimits st r now).result = .globalLimited ∧
      (checkLimits st r now).state.clientLimiters = st.clientLimiters ∧
      (checkLimits st r now).state.globalLimiter = (st.globalLimiter.Allow now).limiter) ∧
    ((st.globalLimiter.Allow now).ok = true →
      (((getClientLimiter st.clientLimiters (getClientIP r) now).limiter.Allow now).ok
          = false →
        (checkLimits st r now).result = .clientLimited) ∧
      (checkLimits st r now).state.globalLimiter.tokens
        = (st.globalLimiter.advance now).tokens - 1) := by
  constructor
  · intro h
    refine ⟨?_, ?_, ?_⟩ <;> simp [checkLimits, h]
  · intro h
    constructor
    · intro hc
      simp [checkLimits, h, hc]
    · rw [checkLimits_globalLimiter]
      exact Limiter.Allow_ok_tokens st.globalLimiter now h

/-- Witness for C4: at time 0 an empty global bucket rejects with the
client map untouched, and with a full global bucket but an exhausted
client bucket the result is `ClientLimited` with the global bucket at
seven tokens (one below its refilled eight). -/
theorem checkLimits_global_first_witness :
    (checkLimits { globalLimiter := emptyLimiter, clientLimiters := [] }
        (testReq "/o/r/f") 0).result = .globalLimited ∧
    (checkLimits { globalLimiter := testLimiter
                   clientLimiters := [("1.2.3.4", { limiter := emptyLimiter, lastSeen := 0 })] }
        (testReq "/o/r/f") 0).result = .clientLimited ∧
    (checkLimits { globalLimiter := testLimiter
                   clientLimiters := [("1.2.3.4", { limiter := emptyLimiter, lastSeen := 0 })] }
        (testReq "/o/r/f") 0).state.globalLimiter.tokens = 7 := by
  have hge : (emptyLimiter.Allow 0).ok = false := by
    norm_num [Limiter.Allow, Limiter.advance, emptyLimiter, min_def]
  have hgf : (testLimiter.Allow 0).ok = true := by
    norm_num [Limiter.Allow, Limiter.advance, testLimiter, min_def]
  have hcl : ((getClientLimiter
      [("1.2.3.4", { limiter := emptyLimiter, lastSeen := 0 })]
      (getClientIP (testReq "/o/r/f")) 0).limiter.Allow 0).ok = false := by
    have hip : getClientIP (testReq "/o/r/f") = "1.2.3.4" := rfl
    rw [hip]
    norm_num [getClientLimiter, lookupClient, Limiter.Allow, Limiter.advance,
      emptyLimiter, min_def]
  refine ⟨((checkLimits_global_first { globalLimiter := emptyLimiter, clientLimiters := [] }
      (testReq "/o/r/f") 0).1 hge).1, ?_, ?_⟩
  · exact ((checkLimits_global_first
      { globalLimiter := testLimiter
        clientLimiters := [("1.2.3.4", { limiter := emptyLimiter, lastSeen := 0 })] }
      (testReq "/o/r/f") 0).2 hgf).1 hcl
  · have h := ((checkLimits_global_first
      { globalLimiter := testLimiter
        clientLimiters := [("1.2.3.4", { limiter := emptyLimiter, lastSeen := 0 })] }
      (testReq "/o/r/f") 0).2 hgf).2
    rw [h]
    norm_num [Limiter.advance, testLimiter, min_def]

/-- C6: with well-formed metadata, a reported size above 1 MiB routes
the payload through the `download_url` stream — whatever bytes arrive
are returned with no size re-check — while a size of at most 1 MiB
base64-decodes the inline payload, and its decode failure is an error
distinct from either transport failure. -/
theorem GetFileContent_size_strategy (owner repo path token : String) (u : Upstream)
    (fd : FileData) (hmeta : u.meta = .httpResponse 200 (.ok fd)) :
    (fd.size > 1024 * 1024 →
      (∀ bs, u.download = .body (.ok bs) →
        ∃ ct, GetFileContent owner repo path token u = .ok (bs, ct)) ∧
      (u.download = .transportError →
        GetFileContent owner repo path token u = .error .downloadTransport)) ∧
    (¬ fd.size > 1024 * 1024 →
      (∀ bs, base64Decode fd.content = some bs →
        ∃ ct, GetFileContent owner repo path token u = .ok (bs, ct)) ∧
      (base64Decode fd.content = none →
        GetFileContent owner repo path token u = .error .decodeContent)) ∧
    (FetchError.decodeContent ≠ FetchError.fetchTransport ∧
      FetchError.decodeContent ≠ FetchError.downloadTransport) := by
  refine ⟨fun hsz => ⟨fun bs hdl => ?_, fun hdl => ?_⟩,
    fun hsz => ⟨fun bs hb => ?_, fun hb => ?_⟩, by simp, by simp⟩
  · norm_num at hsz
    simp [GetFileContent, hmeta, hdl, hsz]
  · norm_num at hsz
    simp [GetFileContent, hmeta, hdl, hsz]
  · norm_num at hsz
    simp [GetFileContent, hmeta, hb, not_lt.mpr hsz]
  · norm_num at hsz
    simp [GetFileContent, hmeta, hb, not_lt.mpr hsz]

/-- `goSplitChar` never returns the empty list of groups. -/
theorem goSplitChar_ne_nil (sep : Char) (cs : List Char) : goSplitChar sep cs ≠ [] := by
  cases cs with
  | nil => simp [goSplitChar]
  | cons c cs =>
    simp only [goSplitChar]
    split
    · simp
    · split <;> simp

/-- The first group produced by `goSplitChar` is the longest separator-free
prefix. -/
theorem goSplitChar_headD (sep : Char) (cs : List Char) :
    (goSplitChar sep cs).headD [] = cs.takeWhile (fun c => !(c = sep)) := by
  induction cs with
  | nil => simp [goSplitChar]
  | cons c cs ih =>
    by_cases h : c = sep
    · simp [goSplitChar, h]
    · cases hgs : goSplitChar sep cs with
      | nil => exact absurd hgs (goSplitChar_ne_nil sep cs)
      | cons g gs =>
        rw [hgs] at ih
        simp only [List.headD_cons] at ih
        simp [goSplitChar, h, hgs, List.takeWhile_cons, ih]

/-- `headD` of a mapped nonempty list. -/
theorem headD_map_of_ne_nil {α β : Type} (f : α → β) (l : List α) (d : β) (d0 : α)
    (h : l ≠ []) : (l.map f).headD d = f (l.headD d0) := by
  cases l with
  | nil => exact absurd rfl h
  | cons x xs => rfl

/-- When `findIdx?` finds its first hit at `j`, dropping the failing
prefix is dropping `j` elements. -/
theorem dropWhile_eq_drop_of_findIdx? {α : Type} (p : α → Bool) :
    ∀ (l : List α) (j : Nat), l.findIdx? p = some j →
      l.dropWhile (fun c => !(p c)) = l.drop j := by
  intro l
  induction l with
  | nil => intro j h; simp at h
  | cons a l ih =>
    intro j h
    by_cases hp : p a
    · simp [List.findIdx?_cons, hp] at h
      subst h
      simp [List.dropWhile_cons, hp]
    · simp [List.findIdx?_cons, hp, List.findIdx?_succ] at h
      obtain ⟨j1, hj1, hj2⟩ := h
      subst hj2
      simp [List.dropWhile_cons, hp, ih j1 hj1]

/-- C7: the derived client key follows the spec's precedence: the
trusted-proxy header when non-empty, else the forwarded-for header's
first comma-separated element trimmed of whitespace, else the peer
address with its port stripped (whole when it has no colon). -/
theorem getClientIP_precedence (r : Request) : getClientIP r = clientKeySpec r := by
  unfold getClientIP clientKeySpec
  by_cases h1 : r.xRealIP = ""
  · simp only [h1, ne_eq, not_true_eq_false, if_false, reduceIte]
    by_cases h2 : r.xForwardedFor = ""
    · simp only [h2, ne_eq, not_true_eq_false, if_false, reduceIte]
      by_cases hc : ':' ∈ r.remoteAddr.toList
      · have hmem : ':' ∈ r.remoteAddr.toList.reverse := by
          simpa [List.mem_reverse] using hc
        have hsome : (r.remoteAddr.toList.reverse.findIdx? (fun x => x = ':')).isSome := by
          rcases ho : r.remoteAddr.toList.reverse.findIdx? (fun x => x = ':') with _ | j
          · rw [List.findIdx?_eq_none_iff] at ho
            have := ho ':' hmem
            simp at this
          · simp
        obtain ⟨j, hj⟩ := Option.isSome_iff_exists.mp hsome
        have hdrop := dropWhile_eq_drop_of_findIdx? (fun x => x = ':')
          r.remoteAddr.toList.reverse j hj
        have hL : goLastIndex r.remoteAddr.toList ':'
            = some (r.remoteAddr.toList.length - 1 - j) := by
          unfold goLastIndex
          rw [hj]
        rw [hL]
        show String.mk (r.remoteAddr.toList.take (r.remoteAddr.toList.length - 1 - j))
          = peerWithoutPort r.remoteAddr
        unfold peerWithoutPort
        have hcontains : r.remoteAddr.toList.contains ':' = true := by
          simpa [List.elem_iff] using hc
        rw [if_pos hcontains]
        have hdrop2 : List.dropWhile (fun c : Char => decide (c ≠ ':'))
            r.remoteAddr.toList.reverse = List.drop j r.remoteAddr.toList.reverse := by
          rw [show (fun c : Char => decide (c ≠ ':'))
              = (fun c : Char => !decide (c = ':')) from by funext c; simp [decide_not]]
          exact hdrop
        rw [hdrop2, List.drop_drop]
        rw [← List.rdrop_eq_reverse_drop_reverse]
        unfold List.rdrop
        congr 2
        omega
      · have hnone : r.remoteAddr.toList.reverse.findIdx? (fun x => x = ':') = none := by
          rw [List.findIdx?_eq_none_iff]
          intro x hx
          simp only [List.mem_reverse] at hx
          simp only [decide_eq_false_iff_not]
          intro he
          exact hc (he ▸ hx)
        have hL : goLastIndex r.remoteAddr.toList ':' = none := by
          unfold goLastIndex
          rw [hnone]
        rw [hL]
        show r.remoteAddr = peerWithoutPort r.remoteAddr
        unfold peerWithoutPort
        have hncontains : r.remoteAddr.toList.contains ':' = false := by
          simpa [List.elem_iff] using hc
        rw [if_neg (by rw [hncontains]; simp)]
    · simp only [h2, ne_eq, not_false_eq_true, if_true, reduceIte]
      unfold goSplit firstForwardedElement
      rw [headD_map_of_ne_nil String.mk _ "" [] (goSplitChar_ne_nil ',' _)]
      rw [goSplitChar_headD]
      simp [ne_eq, decide_not]
  · simp [h1]

/-- Witness for C7 on three concrete requests, one per precedence tier. -/
theorem getClientIP_precedence_witness :
    getClientIP
      { method := "GET", path := "/", xRealIP := "7.7.7.7",
        xForwardedFor := " 9.9.9.9 , 8.8.8.8", remoteAddr := "[::1]:8080" } = "7.7.7.7" ∧
    getClientIP
      { method := "GET", path := "/", xRealIP := "",
        xForwardedFor := " 9.9.9.9 , 8.8.8.8", remoteAddr := "[::1]:8080" } = "9.9.9.9" ∧
    getClientIP
      { method := "GET", path := "/", xRealIP := "",
        xForwardedFor := "", remoteAddr := "[::1]:8080" } = "[::1]" := by
  refine ⟨?_, ?_, ?_⟩
  · rw [getClientIP_precedence]; rfl
  · rw [getClientIP_precedence]; rfl
  · rw [getClientIP_precedence]; rfl

/-- One admitted `checkLimits` pass of the test client at time 50:
both buckets spend one token. -/
theorem testCheckLimits (m p : String) :
    checkLimits { globalLimiter := testLimiter, clientLimiters := [] }
      { method := m, path := p, xRealIP := "", xForwardedFor := "",
        remoteAddr := "1.2.3.4:5678" } 50
      = { result := .admitted, state := testStateAfter } := by
  have hg : testLimiter.Allow 50
      = { ok := true, limiter := { limit := 1, burst := 8, tokens := 7, lastTime := 50 } } := by
    norm_num [Limiter.Allow, Limiter.advance, testLimiter, min_def]
  have hc : Limiter.Allow { limit := 1, burst := 8, tokens := 8, lastTime := 0 } 50
      = { ok := true, limiter := { limit := 1, burst := 8, tokens := 7, lastTime := 50 } } := by
    norm_num [Limiter.Allow, Limiter.advance, min_def]
  have hip : getClientIP
      { method := m, path := p, xRealIP := "", xForwardedFor := "",
        remoteAddr := "1.2.3.4:5678" } = "1.2.3.4" := rfl
  simp [checkLimits, hg, hip, getClientLimiter, lookupClient, NewLimiter,
    ClientRate, ClientBurst, hc, updateClientLimiter, testStateAfter]

/-- The cached test token is still valid at time 50. -/
theorem testGetToken (mint : MintOutcome) :
    getInstallationToken { installationToken := "cached-token", installationTokenExpiry := 100 }
      50 mint
      = { result := .ok "cached-token"
          cache := { installationToken := "cached-token", installationTokenExpiry := 100 }
          mintCalls := 0 } := by
  norm_num [getInstallationToken]

/-- The expired test cache together with a failing exchange yields the
mint error. -/
theorem testGetTokenExpired :
    getInstallationToken { installationToken := "cached-token", installationTokenExpiry := 0 }
      50 .exchangeError
      = { result := .error "failed to get installation token"
          cache := { installationToken := "cached-token", installationTokenExpiry := 0 }
          mintCalls := 1 } := by
  norm_num [getInstallationToken]

/-- Full evaluation of the pipeline on the hidden-file request: the
path-safety step rejects with status 403. -/
theorem testRun403_eq :
    requestHandler false (testReq "/owner/repo/.git/config") 50 (.success "t" 4000)
        testUpstream testState
      = { response := { status := 403, body := none, contentType := none }
          state := { limiters := testStateAfter
                     cache := { installationToken := "cached-token"
                                installationTokenExpiry := 100 } }
          trace := [.liveness, .rateGate, .methodCheck, .credential, .pathParse, .pathSafety]
          mintCalls := 0, fetchResult := none } := by
  have hs : goSplitN "/owner/repo/.git/config" '/' 4
      = ["", "owner", "repo", ".git/config"] := rfl
  have hd : hasDotSegment ".git/config" = true := rfl
  simp [requestHandler, testState, testCheckLimits, testReq, testGetToken, hs, hd]

/-- Full evaluation of the pipeline when the cached token is expired and
the mint exchange fails: status 500 after the first four checks. -/
theorem testRun500_eq :
    requestHandler false (testReq "/owner/repo/docs/readme.md") 50 .exchangeError
        testUpstream testStateExpired
      = { response := { status := 500, body := none, contentType := none }
          state := { limiters := testStateAfter
                     cache := { installationToken := "cached-token"
                                installationTokenExpiry := 0 } }
          trace := [.liveness, .rateGate, .methodCheck, .credential]
          mintCalls := 1, fetchResult := none } := by
  simp [requestHandler, testStateExpired, testCheckLimits, testReq, testGetTokenExpired]

/-- Full evaluation of the pipeline on a well-formed request whose
upstream fetch fails at the transport layer: status 404. -/
theorem testRun404_eq :
    requestHandler false (testReq "/owner/repo/docs/readme.md") 50 (.success "t" 4000)
        testUpstreamDown testState
      = { response := { status := 404, body := none, contentType := none }
          state := { limiters := testStateAfter
                     cache := { installationToken := "cached-token"
                                installationTokenExpiry := 100 } }
          trace := pipelineOrder
          mintCalls := 0
          fetchResult := some (.error .fetchTransport) } := by
  have hs : goSplitN "/owner/repo/docs/readme.md" '/' 4
      = ["", "owner", "repo", "docs/readme.md"] := rfl
  have hd : hasDotSegment "docs/readme.md" = false := rfl
  have hf : GetFileContent "owner" "repo" "docs/readme.md" "cached-token" testUpstreamDown
      = .error .fetchTransport := rfl
  simp [requestHandler, testState, testCheckLimits, testReq, testGetToken, hs, hd, hf]

/-- Full evaluation of the pipeline on a well-formed request against the
healthy test upstream: 200 with the decoded body and sniffed type. -/
theorem testRun200_eq :
    (requestHandler false (testReq "/owner/repo/docs/readme.md") 50 (.success "t" 4000)
        testUpstream testState).response
      = { status := 200
          body := some [72, 101, 108, 108, 111, 44, 32, 87, 111, 114, 108, 100, 33]
          contentType := some "text/plain" } := by
  have hs : goSplitN "/owner/repo/docs/readme.md" '/' 4
      = ["", "owner", "repo", "docs/readme.md"] := rfl
  have hd : hasDotSegment "docs/readme.md" = false := rfl
  have hf : GetFileContent "owner" "repo" "docs/readme.md" "cached-token" testUpstream
      = .ok ([72, 101, 108, 108, 111, 44, 32, 87, 111, 114, 108, 100, 33], "text/plain") := by
    norm_num [GetFileContent, testUpstream]
    rfl
  simp [requestHandler, testState, testCheckLimits, testReq, testGetToken, hs, hd, hf]

/-- Witness for C6: the 13-byte test file is served from its decoded
inline payload; the oversized test file is served from its streamed
download body (two bytes, no size re-check). -/
theorem GetFileContent_size_strategy_witness :
    (∃ ct, GetFileContent "owner" "repo" "docs/readme.md" "t" testUpstream
      = .ok ([72, 101, 108, 108, 111, 44, 32, 87, 111, 114, 108, 100, 33], ct)) ∧
    (∃ ct, GetFileContent "owner" "repo" "big.bin" "t" testUpstreamBig
      = .ok ([9, 9], ct)) :=
  ⟨((GetFileContent_size_strategy "owner" "repo" "docs/readme.md" "t" testUpstream
        _ rfl).2.1 (by norm_num [testUpstream])).1
      [72, 101, 108, 108, 111, 44, 32, 87, 111, 114, 108, 100, 33] rfl,
   ((GetFileContent_size_strategy "owner" "repo" "big.bin" "t" testUpstreamBig
        _ rfl).1 (by norm_num [testUpstreamBig])).1 [9, 9] rfl⟩

/-- C1: every run of the pipeline executes a prefix of the fixed check
order liveness, rate-gate, method, credential, path parse, path safety,
fetch; any non-200 outcome is the mapped status of the last check that
ran (so the first failure is terminal and nothing later executes, and no
check repeats); a 200 ran every check; and a credential-failure 500 runs
exactly the liveness, rate-gate, method and credential checks — the
rate-gate and method checks have executed before the mint failure. -/
theorem requestHandler_pipeline_order (ctx : Bool) (r : Request) (now : ℚ)
    (mint : MintOutcome) (u : Upstream) (st : ProxyState) :
    (∃ k, (requestHandler ctx r now mint u st).trace = pipelineOrder.take k) ∧
    ((requestHandler ctx r now mint u st).response.status ≠ 200 →
      ∃ s, (requestHandler ctx r now mint u st).trace.getLast? = some s ∧
        stepStatus s = (requestHandler ctx r now mint u st).response.status) ∧
    ((requestHandler ctx r now mint u st).response.status = 200 →
      (requestHandler ctx r now mint u st).trace = pipelineOrder) ∧
    ((requestHandler ctx r now mint u st).response.status = 500 →
      (requestHandler ctx r now mint u st).trace
        = [.liveness, .rateGate, .methodCheck, .credential] ∧
      Step.rateGate ∈ (requestHandler ctx r now mint u st).trace ∧
      Step.methodCheck ∈ (requestHandler ctx r now mint u st).trace) := by
  simp only [requestHandler]
  split
  · exact ⟨⟨1, rfl⟩, fun _ => ⟨.liveness, rfl, rfl⟩, by simp, by simp⟩
  split
  · exact ⟨⟨2, rfl⟩, fun _ => ⟨.rateGate, rfl, rfl⟩, by simp, by simp⟩
  split
  · exact ⟨⟨3, rfl⟩, fun _ => ⟨.methodCheck, rfl, rfl⟩, by simp, by simp⟩
  split
  · exact ⟨⟨4, rfl⟩, fun _ => ⟨.credential, rfl, rfl⟩, by simp,
      fun _ => ⟨rfl, by simp, by simp⟩⟩
  split
  · exact ⟨⟨5, rfl⟩, fun _ => ⟨.pathParse, rfl, rfl⟩, by simp, by simp⟩
  split
  · exact ⟨⟨6, rfl⟩, fun _ => ⟨.pathSafety, rfl, rfl⟩, by simp, by simp⟩
  split
  · exact ⟨⟨7, rfl⟩, fun _ => ⟨.fetch, rfl, rfl⟩, by simp, by simp⟩
  · exact ⟨⟨7, rfl⟩, by simp, fun _ => rfl, by simp⟩

/-- Witness for C1 at scenario D: an expired cache and a failing mint
produce status 500 with exactly the first four checks executed. -/
theorem requestHandler_pipeline_order_witness :
    (requestHandler false (testReq "/owner/repo/docs/readme.md") 50 .exchangeError
        testUpstream testStateExpired).trace
      = [.liveness, .rateGate, .methodCheck, .credential] :=
  ((requestHandler_pipeline_order false (testReq "/owner/repo/docs/readme.md") 50
      .exchangeError testUpstream testStateExpired).2.2.2
    (by rw [testRun500_eq])).1

/-- C3: whenever the path-safety step runs, the pipeline rejects with
403 exactly when some segment of the file path starts with a dot; in
particular `/owner/repo/.git/config` is rejected with 403 while
`/owner/repo/docs/readme.md` has no dot segment and passes the check
(reaching the fetch and returning 200 on the healthy test upstream). -/
theorem requestHandler_path_safety (ctx : Bool) (r : Request) (now : ℚ)
    (mint : MintOutcome) (u : Upstream) (st : ProxyState) :
    (Step.pathSafety ∈ (requestHandler ctx r now mint u st).trace →
      ((requestHandler ctx r now mint u st).response.status = 403 ↔
        hasDotSegment ((goSplitN r.path '/' 4).getD 3 "") = true)) ∧
    (requestHandler false (testReq "/owner/repo/.git/config") 50 (.success "t" 4000)
        testUpstream testState).response.status = 403 ∧
    hasDotSegment ((goSplitN "/owner/repo/docs/readme.md" '/' 4).getD 3 "") = false ∧
    (requestHandler false (testReq "/owner/repo/docs/readme.md") 50 (.success "t" 4000)
        testUpstream testState).response.status = 200 := by
  refine ⟨?_, by rw [testRun403_eq], rfl, by rw [testRun200_eq]⟩
  simp only [requestHandler]
  split
  · intro h; simp at h
  split
  · intro h; simp at h
  split
  · intro h; simp at h
  split
  · intro h; simp at h
  split
  · intro h; simp at h
  split
  · next hdot => exact fun _ => iff_of_true rfl hdot
  · next hdot =>
    split
    · exact fun _ => iff_of_false (by simp) hdot
    · exact fun _ => iff_of_false (by simp) hdot

/-- Witness for C3: the hidden-file request is rejected with 403 through
the path-safety equivalence. -/
theorem requestHandler_path_safety_witness :
    (requestHandler false (testReq "/owner/repo/.git/config") 50 (.success "t" 4000)
        testUpstream testState).response.status = 403 :=
  ((requestHandler_path_safety false (testReq "/owner/repo/.git/config") 50 (.success "t" 4000)
      testUpstream testState).1 (by rw [testRun403_eq]; simp)).mpr rfl

/-- C5: a request that reaches the content fetch responds 404 exactly
when the fetch fails, and every enumerated fetch failure — metadata
transport error, any non-200 upstream status, a body that fails to
parse, a failing base64 decode of the inline payload, and a transport
or read failure on the streamed download — is such a failure. -/
theorem fetch_failures_collapse_to_notFound (ctx : Bool) (r : Request) (now : ℚ)
    (mint : MintOutcome) (u : Upstream) (st : ProxyState)
    (owner repo path token : String) (code : Nat) (body : Except Unit FileData)
    (fd : FileData) :
    ((∃ e, (requestHandler ctx r now mint u st).fetchResult = some (.error e)) ↔
      (requestHandler ctx r now mint u st).response.status = 404) ∧
    (u.meta = .transportError →
      GetFileContent owner repo path token u = .error .fetchTransport) ∧
    (u.meta = .httpResponse code body → code ≠ 200 →
      GetFileContent owner repo path token u = .error (.upstreamStatus code)) ∧
    (u.meta = .httpResponse 200 (.error ()) →
      GetFileContent owner repo path token u = .error .parseBody) ∧
    (u.meta = .httpResponse 200 (.ok fd) → ¬ fd.size > 1024 * 1024 →
      base64Decode fd.content = none →
      GetFileContent owner repo path token u = .error .decodeContent) ∧
    (u.meta = .httpResponse 200 (.ok fd) → fd.size > 1024 * 1024 →
      (u.download = .transportError →
        GetFileContent owner repo path token u = .error .downloadTransport) ∧
      (u.download = .body (.error ()) →
        GetFileContent owner repo path token u = .error .readBody)) := by
  refine ⟨?_, fun h => by simp [GetFileContent, h],
    fun h hc => by simp [GetFileContent, h, hc],
    fun h => by simp [GetFileContent, h], fun h hsz hb => ?_, fun h hsz => ?_⟩
  · simp only [requestHandler]
    split
    · simp
    split
    · simp
    split
    · simp
    split
    · simp
    split
    · simp
    split
    · simp
    split
    · next e heq => exact iff_of_true ⟨e, by rw [heq]⟩ rfl
    · next res heq =>
      refine iff_of_false ?_ (by simp)
      rintro ⟨e, he⟩
      rw [heq] at he
      simp at he
  · norm_num at hsz
    simp [GetFileContent, h, not_lt.mpr hsz, hb]
  · norm_num at hsz
    constructor
    · intro hdl; simp [GetFileContent, h, hsz, hdl]
    · intro hdl; simp [GetFileContent, h, hsz, hdl]

/-- Witness for C5: a metadata transport failure yields the fetch error
and the pipeline maps it to 404 on a well-formed request. -/
theorem fetch_failures_collapse_to_notFound_witness :
    (requestHandler false (testReq "/owner/repo/docs/readme.md") 50 (.success "t" 4000)
        testUpstreamDown testState).response.status = 404 ∧
    GetFileContent "owner" "repo" "docs/readme.md" "t" testUpstreamDown
      = .error .fetchTransport :=
  ⟨((fetch_failures_collapse_to_notFound false (testReq "/owner/repo/docs/readme.md") 50
      (.success "t" 4000) testUpstreamDown testState "owner" "repo" "docs/readme.md" "t"
      0 (.error ()) ⟨"", "", "", 0, ""⟩).1).mp ⟨.fetchTransport, by rw [testRun404_eq]⟩,
   (fetch_failures_collapse_to_notFound false (testReq "/owner/repo/docs/readme.md") 50
      (.success "t" 4000) testUpstreamDown testState "owner" "repo" "docs/readme.md" "t"
      0 (.error ()) ⟨"", "", "", 0, ""⟩).2.1 rfl⟩
